import Mathlib

/-!
Verification development for the Node Connection & Block Template Feed
Manager of the pyrin stratum bridge (`src/pyrinstratum/pyrinapi.go`).

The Go code is embedded shallowly:

* RPC results that come from the node are environment inputs, supplied as
  explicit arguments (a list of `GetInfoResult` for the `GetInfo` calls a
  loop makes, an `Except` value per stats query, boolean outcomes for
  `reconnect`).
* The two background loops (`startBlockTemplateListener`,
  `startStatsThread`) are embedded as step functions over explicit state,
  folded over a list of externally scheduled events.  The Go `select` is
  modelled by letting the environment choose, per iteration, which ready
  case fires; a validity predicate records which choices a real Go
  execution can make (a case can only be chosen when its channel is
  ready).  Per the Go specification, when several cases are ready the
  selected one is pseudo-random, so any ready case is a possible choice.
* `time.Ticker` is modelled per the go 1.18 semantics selected by the
  module's go.mod: the runtime timer fires no earlier than its scheduled
  deadline and performs a non-blocking send into the one-slot buffered
  channel `ticker.C` (the tick is dropped when one is already buffered),
  scheduling the next fire one period later; receiving from `ticker.C`
  consumes the buffered tick; `Reset` reschedules the next fire one full
  period from the reset time but does not drain a tick that is already
  buffered in the channel.
* Durations are in seconds as `Nat` (the code uses 5s sleeps, 30s stats
  ticks, and the configured `blockWaitTime`).  The `float64` difficulty
  payload is passed through untouched by the code, so it is modelled as
  an opaque `Int` value.
-/

namespace PyrinStratum

/-- Result of one `GetInfo` RPC against the node: either the call itself
fails, or it succeeds and reports whether the node is synced.  (The Go
error value is only wrapped and returned, so its content is not
modelled.) -/
inductive GetInfoResult where
  | err : GetInfoResult
  | ok (isSynced : Bool) : GetInfoResult
deriving DecidableEq, Repr

/-- Outcome of `waitForSync`: success (`nil` in Go) or a propagated RPC
error (the wrapped `GetInfo` error). -/
inductive SyncOutcome where
  | synced : SyncOutcome
  | rpcError : SyncOutcome
deriving DecidableEq, Repr

/-- Embedding of the loop body of `waitForSync` (pyrinapi.go):

```go
for {
    clientInfo, err := s.pyrind.GetInfo()
    if err != nil {
        return errors.Wrapf(err, "error fetching server info from pyrind @ %s", s.address)
    }
    if clientInfo.IsSynced {
        break
    }
    s.logger.Warn("Pyrin is not synced, waiting for sync before starting bridge")
    time.Sleep(5 * time.Second)
}
return nil
```

The argument is the stream of `GetInfo` results the node produces, one
per loop iteration.  The result is `none` when the stream is exhausted
with the loop still running, otherwise `some (outcome, calls, sleeps)`
where `calls` counts the `GetInfo` calls made and `sleeps` counts the
5-second backoff sleeps performed before returning. -/
def waitForSyncLoop : List GetInfoResult → Option (SyncOutcome × Nat × Nat)
  | [] => none
  | GetInfoResult.err :: _ => some (SyncOutcome.rpcError, 1, 0)
  | GetInfoResult.ok true :: _ => some (SyncOutcome.synced, 1, 0)
  | GetInfoResult.ok false :: rest =>
    match waitForSyncLoop rest with
    | none => none
    | some (o, calls, sleeps) => some (o, calls + 1, sleeps + 1)

/-- Observable outcome of `Start` (pyrinapi.go):

```go
func (ks *PyrinApi) Start(ctx context.Context, blockCb func()) {
    ks.waitForSync(true)
    go ks.startBlockTemplateListener(ctx, blockCb)
    go ks.startStatsThread(ctx)
}
```

`Start` returns no value in Go, so there is no field in which an error
could be surfaced to the caller; the record only traces what the call
did: how many `GetInfo` calls and backoff sleeps the initial blocking
`waitForSync(true)` made, and that both background tasks were
launched. -/
structure StartResult where
  syncCalls : Nat
  syncSleeps : Nat
  launchedListener : Bool
  launchedStats : Bool
deriving DecidableEq, Repr

/-- Embedding of `Start`: it performs the blocking `waitForSync(true)`
first (if that call never returns, `Start` never returns: `none`), then
launches both background goroutines unconditionally — the error result
of `waitForSync` is discarded (`ks.waitForSync(true)` with no
assignment), and `Start` itself returns nothing. -/
def Start (responses : List GetInfoResult) : Option StartResult :=
  match waitForSyncLoop responses with
  | none => none
  | some (_, calls, sleeps) => some ⟨calls, sleeps, true, true⟩

/-- The node RPC client held by the manager (`rpcclient.RPCClient`);
only its existence and address matter to the bridge code. -/
structure RPCClient where
  clientAddress : String
deriving DecidableEq, Repr

/-- The fields of the `PyrinApi` struct that the embedded operations
read or write (the logger is modelled separately as emitted log
entries). -/
structure PyrinApiState where
  address : String
  blockWaitTime : Nat
  pyrind : Option RPCClient
  connected : Bool
deriving DecidableEq, Repr

/-- Embedding of `NewPyrinApi`: constructing the RPC client can fail
(`clientOk = false`), in which case the constructor returns the error
and no manager; on success every field is initialised, with
`connected: true`. -/
def NewPyrinApi (address : String) (blockWaitTime : Nat) (clientOk : Bool) :
    Option PyrinApiState :=
  if clientOk then some ⟨address, blockWaitTime, some ⟨address⟩, true⟩ else none

/-- Embedding of `reconnect` (pyrinapi.go):

```go
func (ks *PyrinApi) reconnect() error {
    if ks.pyrind != nil {
        return ks.pyrind.Reconnect()
    }
    client, err := rpcclient.NewRPCClient(ks.address)
    if err != nil {
        return err
    }
    ks.pyrind = client
    return nil
}
```

`reconnectOk` is the outcome of the in-place `ks.pyrind.Reconnect()`
transport call and `newClientOk` the outcome of constructing a fresh
client; both are environment inputs.  The result pairs the updated
struct state with `true` for a `nil` error return.  Note that neither
branch assigns `ks.connected`. -/
def reconnect (s : PyrinApiState) (reconnectOk newClientOk : Bool) :
    PyrinApiState × Bool :=
  match s.pyrind with
  | some _ => (s, reconnectOk)
  | none =>
    if newClientOk then ({ s with pyrind := some ⟨s.address⟩ }, true)
    else (s, false)

/-- Severity levels of the zap logger calls the embedded code makes. -/
inductive LogLevel where
  | info : LogLevel
  | warn : LogLevel
  | error : LogLevel
deriving DecidableEq, Repr

/-- One emitted log entry. -/
structure LogEntry where
  level : LogLevel
  message : String
deriving DecidableEq, Repr

/-- The three cases of the `select` in the block template feed loop
(`startBlockTemplateListener`): context cancellation, a value on
`blockReadyChan` (push notification), and a tick of the fallback
ticker. -/
inductive SelectEvent where
  | ctxDone : SelectEvent
  | blockReady : SelectEvent
  | tick : SelectEvent
deriving DecidableEq, Repr

/-- One scheduled iteration of the feed loop, as chosen by the
environment (node, Go runtime scheduler):

* `time` — the time at which the `select` resolves;
* `cancelled` — whether `ctx.Done()` is ready (the context has been
  cancelled) at this iteration;
* `pushReady` — whether `blockReadyChan` holds a pending push
  notification at this iteration;
* `syncErr` — whether this iteration's `waitForSync(false)` call
  returned an error;
* `reconnectErr` — whether the `reconnect()` attempted after a sync
  error failed (only consulted when `syncErr` is set);
* `event` — the `select` case that fires.  Per the Go specification the
  choice among ready cases is pseudo-random, so any ready case may be
  the one chosen; `feedValid` below constrains the choice to ready
  cases. -/
structure FeedEvent where
  time : Nat
  cancelled : Bool
  pushReady : Bool
  syncErr : Bool
  reconnectErr : Bool
  event : SelectEvent
deriving DecidableEq, Repr

/-- State of the feed loop and of its fallback ticker:

* `time` — time of the last processed happening;
* `nextTick` — the scheduled time of the ticker's next internal fire;
* `buffered` — whether the one-slot buffered channel `ticker.C` holds a
  tick that has been delivered by a fire but not yet received (go 1.18
  ticker semantics, per the module's go.mod);
* `callbacks` — how many times `blockReadyCb()` has been invoked;
* `sleeps` — how many 5-second reconnect-retry sleeps have been
  performed;
* `done` — whether the loop has returned. -/
structure FeedState where
  time : Nat
  nextTick : Nat
  buffered : Bool
  callbacks : Nat
  sleeps : Nat
  done : Bool
deriving DecidableEq, Repr

/-- The part of the loop body before the `select`:

```go
if err := s.waitForSync(false); err != nil {
    s.logger.Error("error checking pyrind sync state, attempting reconnect: ", err)
    if err := s.reconnect(); err != nil {
        s.logger.Error("error reconnecting to pyrind, waiting before retry: ", err)
        time.Sleep(5 * time.Second)
    }
}
```

On a sync error followed by a reconnect failure the loop sleeps 5
seconds; in every case control then falls through to the `select` —
there is no `continue` statement, so the iteration proceeds to the
event race regardless. -/
def feedPreSelect (s : FeedState) (ev : FeedEvent) : FeedState :=
  if ev.syncErr && ev.reconnectErr then { s with sleeps := s.sleeps + 1 } else s

/-- The `select` of the feed loop:

```go
select {
case <-ctx.Done():
    s.logger.Warn("context cancelled, stopping block update listener")
    return
case <-blockReadyChan:
    blockReadyCb()
    ticker.Reset(s.blockWaitTime)
case <-ticker.C: // timeout, manually check for new blocks
    blockReadyCb()
}
```

`bwt` is `s.blockWaitTime` (the `MaxWorkStalenessInterval`).  The
cancellation case returns from the loop.  The push case invokes the
callback and calls `ticker.Reset`, which under go 1.18 semantics
reschedules the ticker's next internal fire to a full fresh interval
from now but does not drain `ticker.C` — a tick already buffered there
survives the reset (`buffered` is unchanged).  The ticker case receives
the buffered tick from `ticker.C` (emptying the one-slot buffer) and
invokes the callback; it does not touch the fire schedule. -/
def feedSelect (bwt : Nat) (s : FeedState) (ev : FeedEvent) : FeedState :=
  match ev.event with
  | SelectEvent.ctxDone => { s with done := true, time := ev.time }
  | SelectEvent.blockReady =>
    { s with callbacks := s.callbacks + 1, nextTick := ev.time + bwt, time := ev.time }
  | SelectEvent.tick =>
    { s with callbacks := s.callbacks + 1, buffered := false, time := ev.time }

/-- One full iteration of the feed loop: nothing happens once the loop
has returned; otherwise the pre-`select` sync/reconnect handling runs
and then the `select` resolves. -/
def feedIter (bwt : Nat) (s : FeedState) (ev : FeedEvent) : FeedState :=
  if s.done then s else feedSelect bwt (feedPreSelect s ev) ev

/-- Running the feed loop over a sequence of loop iterations. -/
def feedRun (bwt : Nat) (s : FeedState) (evs : List FeedEvent) : FeedState :=
  evs.foldl (feedIter bwt) s

/-- One internal fire of the ticker's runtime timer at time `t`: a
non-blocking send into the one-slot channel `ticker.C` — the buffer
becomes (or stays) full, a tick arriving on a full buffer being
dropped — and the next fire is scheduled one period after the current
schedule.  Fires happen in the runtime, concurrently with the loop (the
code never calls `ticker.Stop`, so they continue even after the loop
returns). -/
def tickerFire (bwt : Nat) (s : FeedState) (t : Nat) : FeedState :=
  { s with buffered := true, nextTick := s.nextTick + bwt, time := t }

/-- A happening of a feed-loop execution: either an internal ticker
fire (runtime timer delivering into `ticker.C`) or one iteration of the
loop itself. -/
inductive FeedHappening where
  | fire (time : Nat) : FeedHappening
  | iter (ev : FeedEvent) : FeedHappening
deriving DecidableEq, Repr

/-- One happening applied to the state. -/
def feedStep (bwt : Nat) (s : FeedState) : FeedHappening → FeedState
  | FeedHappening.fire t => tickerFire bwt s t
  | FeedHappening.iter ev => feedIter bwt s ev

/-- Executing a schedule of happenings. -/
def feedExec (bwt : Nat) (s : FeedState) (hs : List FeedHappening) : FeedState :=
  hs.foldl (feedStep bwt) s

/-- Which schedules a real execution can produce: times are monotone; a
ticker fire happens no earlier than its scheduled time; the
cancellation case can only be chosen when the context is cancelled; the
push case only when a push notification is pending; and the ticker case
only when `ticker.C` actually holds a buffered tick. -/
def feedValid (bwt : Nat) : FeedState → List FeedHappening → Prop
  | _, [] => True
  | s, FeedHappening.fire t :: rest =>
    s.time ≤ t ∧ s.nextTick ≤ t ∧
    feedValid bwt (tickerFire bwt s t) rest
  | s, FeedHappening.iter ev :: rest =>
    s.time ≤ ev.time ∧
    (ev.event = SelectEvent.ctxDone → ev.cancelled = true) ∧
    (ev.event = SelectEvent.blockReady → ev.pushReady = true) ∧
    (s.done = false → ev.event = SelectEvent.tick → s.buffered = true) ∧
    feedValid bwt (feedIter bwt s ev) rest

/-- Schedule validity is decidable, so concrete executions can be
checked by evaluation. -/
instance feedValidDecidable (bwt : Nat) :
    (s : FeedState) → (hs : List FeedHappening) → Decidable (feedValid bwt s hs)
  | _, [] => Decidable.isTrue trivial
  | s, FeedHappening.fire t :: rest =>
    letI : Decidable (feedValid bwt (tickerFire bwt s t) rest) :=
      feedValidDecidable bwt (tickerFire bwt s t) rest
    inferInstanceAs (Decidable (_ ∧ _ ∧ _))
  | s, FeedHappening.iter ev :: rest =>
    letI : Decidable (feedValid bwt (feedIter bwt s ev) rest) :=
      feedValidDecidable bwt (feedIter bwt s ev) rest
    inferInstanceAs (Decidable (_ ∧ _ ∧ _ ∧ _ ∧ _))

/-- The log entries emitted by the notification-registration step of
`startBlockTemplateListener`:

```go
err := s.pyrind.RegisterForNewBlockTemplateNotifications(func(_ *appmessage.NewBlockTemplateNotificationMessage) {
    blockReadyChan <- true
})
if err != nil {
    s.logger.Error("fatal: failed to register for block notifications from pyrin")
}
```
-/
def registrationLogs (regErr : Bool) : List LogEntry :=
  if regErr then
    [⟨LogLevel.error, "fatal: failed to register for block notifications from pyrin"⟩]
  else []

/-- Embedding of `startBlockTemplateListener`: register for push
notifications (logging at error severity on failure), then run the
feed loop — the loop is entered regardless of whether registration
succeeded.  The result pairs the registration log with the final loop
state. -/
def startBlockTemplateListener (bwt : Nat) (regErr : Bool) (s : FeedState)
    (evs : List FeedEvent) : List LogEntry × FeedState :=
  (registrationLogs regErr, feedRun bwt s evs)

/-- The fields of a `GetBlockDAGInfo` response the stats loop reads. -/
structure DagInfo where
  tipHashes : List String
  blockCount : Nat
  difficulty : Int
deriving DecidableEq, Repr

/-- One sample forwarded to `RecordNetworkStats`. -/
structure NetworkStatsSample where
  hashesPerSecond : Nat
  blockCount : Nat
  difficulty : Int
deriving DecidableEq, Repr

/-- The warning message logged by the stats loop on either query
failure (the code uses the same text for both). -/
def statsWarnMsg : String :=
  "failed to get network hashrate from pyrin, prom stats will be out of date"

/-- Embedding of the body of one stats tick (`startStatsThread`):

```go
dagResponse, err := ks.pyrind.GetBlockDAGInfo()
if err != nil {
    ks.logger.Warn("failed to get network hashrate from pyrin, prom stats will be out of date", zap.Error(err))
    continue
}
response, err := ks.pyrind.EstimateNetworkHashesPerSecond(dagResponse.TipHashes[0], 1000)
if err != nil {
    ks.logger.Warn("failed to get network hashrate from pyrin, prom stats will be out of date", zap.Error(err))
    continue
}
RecordNetworkStats(response.NetworkHashesPerSecond, dagResponse.BlockCount, dagResponse.Difficulty)
```

`dagResult` is the outcome of `GetBlockDAGInfo` and `estimate` the
node's response function for `EstimateNetworkHashesPerSecond`.  The
outer `Option` is definedness: `dagResponse.TipHashes[0]` is an
unguarded index, so a successful DAG response with an empty tip-hash
list leaves the tick with no defined result (index out of range);
this is modelled by `none`.  The inner `Option` is the recorded sample
(`none` when the tick is skipped), paired with the warning log entries
emitted. -/
def statsTick (dagResult : Except Unit DagInfo)
    (estimate : String → Nat → Except Unit Nat) :
    Option (Option NetworkStatsSample × List LogEntry) :=
  match dagResult with
  | Except.error _ => some (none, [⟨LogLevel.warn, statsWarnMsg⟩])
  | Except.ok dag =>
    match dag.tipHashes.get? 0 with
    | none => none
    | some tip =>
      match estimate tip 1000 with
      | Except.error _ => some (none, [⟨LogLevel.warn, statsWarnMsg⟩])
      | Except.ok h => some (some ⟨h, dag.blockCount, dag.difficulty⟩, [])

/-- One scheduled event of the stats loop `select`: cancellation, or a
ticker tick carrying the node's responses for that tick. -/
inductive StatsEvent where
  | ctxDone : StatsEvent
  | tick (dagResult : Except Unit DagInfo)
      (estimate : String → Nat → Except Unit Nat) : StatsEvent

/-- State of the stats loop: the samples forwarded to
`RecordNetworkStats` so far, the warning log emitted so far, and
whether the loop has returned. -/
structure StatsState where
  samples : List NetworkStatsSample
  logs : List LogEntry
  done : Bool

/-- One iteration of the stats loop: nothing happens once the loop has
returned; cancellation returns; a tick runs `statsTick`, appending its
sample (if any) and its log entries.  `none` propagates the
undefinedness of an out-of-range tip access. -/
def statsStep (s : StatsState) (ev : StatsEvent) : Option StatsState :=
  if s.done then some s else
  match ev with
  | StatsEvent.ctxDone => some { s with done := true }
  | StatsEvent.tick dagResult estimate =>
    match statsTick dagResult estimate with
    | none => none
    | some r =>
      some { s with samples := s.samples ++ r.1.toList, logs := s.logs ++ r.2 }

/-- Running the stats loop over a schedule of events. -/
def statsRun (s : StatsState) : List StatsEvent → Option StatsState
  | [] => some s
  | ev :: rest =>
    match statsStep s ev with
    | none => none
    | some s2 => statsRun s2 rest

theorem feedExec_append (bwt : Nat) (s : FeedState) (xs ys : List FeedHappening) :
    feedExec bwt s (xs ++ ys) = feedExec bwt (feedExec bwt s xs) ys :=
  List.foldl_append _ _ _ _

theorem feedValid_append (bwt : Nat) (xs : List FeedHappening) :
    ∀ (s : FeedState) (ys : List FeedHappening), feedValid bwt s (xs ++ ys) →
      feedValid bwt s xs ∧ feedValid bwt (feedExec bwt s xs) ys := by
  induction xs with
  | nil => exact fun s ys h => ⟨trivial, h⟩
  | cons hp rest ih =>
    intro s ys h
    cases hp with
    | fire t =>
      simp only [List.cons_append, feedValid] at h
      obtain ⟨h1, h2, h3⟩ := h
      obtain ⟨ha, hb⟩ := ih (tickerFire bwt s t) ys h3
      exact ⟨⟨h1, h2, ha⟩, hb⟩
    | iter ev =>
      simp only [List.cons_append, feedValid] at h
      obtain ⟨h1, h2, h3, h4, h5⟩ := h
      obtain ⟨ha, hb⟩ := ih (feedIter bwt s ev) ys h5
      exact ⟨⟨h1, h2, h3, h4, ha⟩, hb⟩

@[simp] theorem feedPreSelect_callbacks (s : FeedState) (ev : FeedEvent) :
    (feedPreSelect s ev).callbacks = s.callbacks := by
  unfold feedPreSelect; split <;> rfl

@[simp] theorem feedPreSelect_nextTick (s : FeedState) (ev : FeedEvent) :
    (feedPreSelect s ev).nextTick = s.nextTick := by
  unfold feedPreSelect; split <;> rfl

@[simp] theorem feedPreSelect_time (s : FeedState) (ev : FeedEvent) :
    (feedPreSelect s ev).time = s.time := by
  unfold feedPreSelect; split <;> rfl

@[simp] theorem feedPreSelect_done (s : FeedState) (ev : FeedEvent) :
    (feedPreSelect s ev).done = s.done := by
  unfold feedPreSelect; split <;> rfl

@[simp] theorem feedPreSelect_buffered (s : FeedState) (ev : FeedEvent) :
    (feedPreSelect s ev).buffered = s.buffered := by
  unfold feedPreSelect; split <;> rfl

@[simp] theorem feedSelect_sleeps (bwt : Nat) (s : FeedState) (ev : FeedEvent) :
    (feedSelect bwt s ev).sleeps = s.sleeps := by
  unfold feedSelect; cases ev.event <;> rfl

theorem feedIter_done (bwt : Nat) (s : FeedState) (ev : FeedEvent) (hd : s.done = true) :
    feedIter bwt s ev = s := by
  unfold feedIter; rw [hd]; rfl

theorem feedIter_not_done (bwt : Nat) (s : FeedState) (ev : FeedEvent)
    (hd : s.done = false) :
    feedIter bwt s ev = feedSelect bwt (feedPreSelect s ev) ev := by
  unfold feedIter; rw [hd]; rfl

theorem feedRun_done (bwt : Nat) (evs : List FeedEvent) :
    ∀ s : FeedState, s.done = true → feedRun bwt s evs = s := by
  induction evs with
  | nil => exact fun s _ => rfl
  | cons ev rest ih =>
    intro s hd
    show feedRun bwt (feedIter bwt s ev) rest = s
    rw [feedIter_done bwt s ev hd, ih s hd]

theorem feedIter_buffer_step (bwt T : Nat) (s : FeedState) (ev : FeedEvent)
    (htime : s.time ≤ ev.time) (h1 : T + bwt ≤ s.nextTick)
    (h2 : s.buffered = true → T + bwt ≤ s.time) (h3 : T ≤ s.time) :
    T + bwt ≤ (feedIter bwt s ev).nextTick ∧
    ((feedIter bwt s ev).buffered = true → T + bwt ≤ (feedIter bwt s ev).time) ∧
    T ≤ (feedIter bwt s ev).time := by
  by_cases hd : s.done = true
  · rw [feedIter_done bwt s ev hd]; exact ⟨h1, h2, h3⟩
  · have hdf : s.done = false := by revert hd; cases s.done <;> simp
    rw [feedIter_not_done bwt s ev hdf]
    unfold feedSelect
    by_cases hb : s.buffered = true
    · have h2b := h2 hb
      cases hev : ev.event <;> simp [hb] <;> omega
    · have hbf : s.buffered = false := by revert hb; cases s.buffered <;> simp
      cases hev : ev.event <;> simp [hbf] <;> omega

theorem feed_buffer_invariant (bwt T : Nat) (hs : List FeedHappening) :
    ∀ s : FeedState, feedValid bwt s hs →
      T + bwt ≤ s.nextTick → (s.buffered = true → T + bwt ≤ s.time) → T ≤ s.time →
      T + bwt ≤ (feedExec bwt s hs).nextTick ∧
      ((feedExec bwt s hs).buffered = true → T + bwt ≤ (feedExec bwt s hs).time) ∧
      T ≤ (feedExec bwt s hs).time := by
  induction hs with
  | nil => exact fun s _ h1 h2 h3 => ⟨h1, h2, h3⟩
  | cons hp rest ih =>
    intro s hv h1 h2 h3
    cases hp with
    | fire t =>
      simp only [feedValid] at hv
      obtain ⟨ht, hsched, hrest⟩ := hv
      refine ih (tickerFire bwt s t) hrest ?_ ?_ ?_
      · show T + bwt ≤ s.nextTick + bwt
        omega
      · intro _
        show T + bwt ≤ t
        omega
      · show T ≤ t
        omega
    | iter ev =>
      simp only [feedValid] at hv
      obtain ⟨ht, _, _, _, hrest⟩ := hv
      obtain ⟨g1, g2, g3⟩ := feedIter_buffer_step bwt T s ev ht h1 h2 h3
      exact ih (feedIter bwt s ev) hrest g1 g2 g3

theorem feedIter_tick_step (bwt : Nat) (s : FeedState) (ev : FeedEvent)
    (hd : s.done = false) (hev : ev.event = SelectEvent.tick) :
    (feedIter bwt s ev).callbacks = s.callbacks + 1 ∧
    (feedIter bwt s ev).nextTick = s.nextTick ∧
    (feedIter bwt s ev).buffered = false ∧
    (feedIter bwt s ev).done = false := by
  unfold feedIter feedSelect
  rw [hd, hev]
  simp [hd]

theorem feedIter_push_step (bwt : Nat) (s : FeedState) (ev : FeedEvent)
    (hd : s.done = false) (hev : ev.event = SelectEvent.blockReady) :
    (feedIter bwt s ev).callbacks = s.callbacks + 1 ∧
    (feedIter bwt s ev).nextTick = ev.time + bwt ∧
    (feedIter bwt s ev).buffered = s.buffered ∧
    (feedIter bwt s ev).time = ev.time ∧
    (feedIter bwt s ev).done = false := by
  unfold feedIter feedSelect
  rw [hd, hev]
  simp [hd]

theorem feedRun_all_ticks (bwt : Nat) (evs : List FeedEvent) :
    ∀ s : FeedState, s.done = false →
      (∀ ev ∈ evs, ev.event = SelectEvent.tick) →
      (feedRun bwt s evs).callbacks = s.callbacks + evs.length ∧
      (feedRun bwt s evs).done = false := by
  induction evs with
  | nil => exact fun s hd _ => ⟨rfl, hd⟩
  | cons ev rest ih =>
    intro s hd hall
    obtain ⟨hc, _, _, hdone⟩ :=
      feedIter_tick_step bwt s ev hd (hall ev (List.mem_cons_self _ _))
    have hall2 : ∀ e ∈ rest, e.event = SelectEvent.tick :=
      fun e he => hall e (List.mem_cons_of_mem _ he)
    obtain ⟨g1, g2⟩ := ih (feedIter bwt s ev) hdone hall2
    refine ⟨?_, g2⟩
    show (feedRun bwt (feedIter bwt s ev) rest).callbacks = s.callbacks + (rest.length + 1)
    rw [g1, hc]
    omega

theorem statsRun_done (sevs : List StatsEvent) :
    ∀ s : StatsState, s.done = true → statsRun s sevs = some s := by
  induction sevs with
  | nil => exact fun s _ => rfl
  | cons ev rest ih =>
    intro s hd
    show statsRun s (ev :: rest) = some s
    unfold statsRun statsStep
    rw [hd]
    simp only [if_true]
    exact ih s hd

theorem statsRun_append (xs ys : List StatsEvent) :
    ∀ s : StatsState,
      statsRun s (xs ++ ys) = (statsRun s xs).bind (fun s2 => statsRun s2 ys) := by
  induction xs with
  | nil => intro s; rfl
  | cons ev rest ih =>
    intro s
    simp only [List.cons_append, statsRun]
    cases h : statsStep s ev with
    | none => rfl
    | some s2 => exact ih s2

theorem waitForSyncLoop_no_err : ∀ rs : List GetInfoResult,
    (∀ r ∈ rs, r ≠ GetInfoResult.err) →
    ∀ o c sl, waitForSyncLoop rs = some (o, c, sl) → o = SyncOutcome.synced := by
  intro rs
  induction rs with
  | nil => intro _ o c sl h; simp [waitForSyncLoop] at h
  | cons r rest ih =>
    intro hne o c sl h
    cases r with
    | err => exact absurd rfl (hne GetInfoResult.err (List.mem_cons_self _ _))
    | ok b =>
      cases b with
      | true =>
        simp [waitForSyncLoop] at h
        exact h.1.symm
      | false =>
        have hne2 : ∀ r ∈ rest, r ≠ GetInfoResult.err :=
          fun r hr => hne r (List.mem_cons_of_mem _ hr)
        simp only [waitForSyncLoop] at h
        cases hrec : waitForSyncLoop rest with
        | none => rw [hrec] at h; simp at h
        | some t =>
          obtain ⟨o2, c2, s2⟩ := t
          rw [hrec] at h
          simp at h
          exact h.1 ▸ ih hne2 o2 c2 s2 hrec

/-- C4: `waitForSync` queries node info in a loop; a query error is
propagated to the caller immediately — one call, no internal retry, no
sleep; a successful query reporting not-synced performs one 5-unit
backoff sleep and retries; and a run in which no query errs can only
end in a success return, never an error — the not-synced path itself
never produces an error. -/
theorem C4_waitForSync_error_propagation (rest rs : List GetInfoResult) :
    waitForSyncLoop (GetInfoResult.err :: rest) = some (SyncOutcome.rpcError, 1, 0) ∧
    waitForSyncLoop (GetInfoResult.ok false :: rest)
      = (waitForSyncLoop rest).map (fun r => (r.1, r.2.1 + 1, r.2.2 + 1)) ∧
    ((∀ r ∈ rs, r ≠ GetInfoResult.err) →
      ∀ o c sl, waitForSyncLoop rs = some (o, c, sl) → o = SyncOutcome.synced) := by
  refine ⟨rfl, ?_, waitForSyncLoop_no_err rs⟩
  simp only [waitForSyncLoop]
  cases h : waitForSyncLoop rest with
  | none => rfl
  | some t => obtain ⟨o, c, sl⟩ := t; rfl

/-- Witness for C4: an immediate error return, and the no-error run
`[ok false, ok true]` ending in success. -/
theorem C4_waitForSync_error_propagation_witness :
    waitForSyncLoop [GetInfoResult.err] = some (SyncOutcome.rpcError, 1, 0) ∧
    SyncOutcome.synced = SyncOutcome.synced :=
  ⟨(C4_waitForSync_error_propagation [] []).1,
   (C4_waitForSync_error_propagation []
       [GetInfoResult.ok false, GetInfoResult.ok true]).2.2 (by decide)
     SyncOutcome.synced 2 1 (by rfl)⟩

/-- C5 counterexample: with `getInfo` failing twice and then succeeding,
`waitForSync` returns at the first failing call, with an error, one call
made and zero backoff sleeps — not after the third call with two sleeps
as the claim states. -/
theorem C5_fails_twice_cex :
    waitForSyncLoop [GetInfoResult.err, GetInfoResult.err, GetInfoResult.ok true]
      = some (SyncOutcome.rpcError, 1, 0) ∧
    some (SyncOutcome.rpcError, 1, 0)
      ≠ some ((SyncOutcome.synced, 3, 2) : SyncOutcome × Nat × Nat) :=
  ⟨rfl, by decide⟩

/-- C5 amended: it is the not-synced responses, not query failures, that
are retried: if `getInfo` succeeds reporting not-synced twice and then
succeeds reporting synced, `waitForSync` returns only after the third
(successful) call, with two 5-unit backoff sleeps; a failing `getInfo`
instead ends the call immediately with an error and no sleeps. -/
theorem C5_not_synced_twice_amended (rest : List GetInfoResult) :
    waitForSyncLoop
        (GetInfoResult.ok false :: GetInfoResult.ok false :: GetInfoResult.ok true :: rest)
      = some (SyncOutcome.synced, 3, 2) ∧
    waitForSyncLoop (GetInfoResult.err :: rest) = some (SyncOutcome.rpcError, 1, 0) :=
  ⟨rfl, rfl⟩

/-- C3 counterexample: with the node unreachable — the very first
`GetInfo` of the startup sync check fails — `Start` still returns
normally having launched both background tasks: the error result of the
blocking `waitForSync(true)` call is discarded, and `Start`, whose Go
signature returns nothing, surfaces no connectivity error to its
caller. -/
theorem C3_start_discards_error_cex :
    Start [GetInfoResult.err] = some ⟨1, 0, true, true⟩ := rfl

/-- C3 amended: `Start` first performs one blocking
`waitForSync(verbose=true)` call — it returns only when that call
returns, and the background tasks are launched only after it — but the
result of that call is discarded: whatever the sync outcome, `Start`
launches both background tasks and returns nothing, so a connectivity
error at startup is not surfaced to the caller of `Start`. -/
theorem C3_start_amended (responses : List GetInfoResult) :
    (Start responses = none ↔ waitForSyncLoop responses = none) ∧
    (∀ out : StartResult, Start responses = some out →
      out.launchedListener = true ∧ out.launchedStats = true ∧
      ∃ o : SyncOutcome,
        waitForSyncLoop responses = some (o, out.syncCalls, out.syncSleeps)) := by
  constructor
  · unfold Start
    cases h : waitForSyncLoop responses with
    | none => simp
    | some t => obtain ⟨o, c, sl⟩ := t; simp
  · intro out hout
    unfold Start at hout
    cases h : waitForSyncLoop responses with
    | none => rw [h] at hout; exact absurd hout (by simp)
    | some t =>
      obtain ⟨o, c, sl⟩ := t
      rw [h] at hout
      obtain rfl : (⟨c, sl, true, true⟩ : StartResult) = out := Option.some.inj hout
      exact ⟨rfl, rfl, o, rfl⟩

/-- Witness for C3 amended: a synced node at startup. -/
theorem C3_start_amended_witness :
    Start [GetInfoResult.ok true] = some ⟨1, 0, true, true⟩ ∧
    StartResult.launchedListener ⟨1, 0, true, true⟩ = true :=
  ⟨rfl, ((C3_start_amended [GetInfoResult.ok true]).2 ⟨1, 0, true, true⟩ rfl).1⟩

/-- C7 counterexample: a failing `reconnect` call leaves the manager
struct — the `connected` field included — completely unchanged:
`reconnect` never assigns `connected`, so the field does not reflect the
outcome of the call (it stays `true` even though the reconnect
failed). -/
theorem C7_reconnect_connected_cex :
    (reconnect ⟨"addr", 30, some ⟨"addr"⟩, true⟩ false false).2 = false ∧
    ((reconnect ⟨"addr", 30, some ⟨"addr"⟩, true⟩ false false).1).connected = true ∧
    (reconnect ⟨"addr", 30, some ⟨"addr"⟩, true⟩ false false).1
      = ⟨"addr", 30, some ⟨"addr"⟩, true⟩ :=
  ⟨rfl, rfl, rfl⟩

/-- C7 amended: the `connected` field is assigned exactly once — to
`true`, by the constructor — and never mutated afterwards: `reconnect`
leaves it unchanged on every call (it updates only the client reference,
and only on the fresh-client path), and no other operation writes it. -/
theorem C7_connected_never_mutated (s : PyrinApiState) (rOk nOk : Bool)
    (addr : String) (bwt : Nat) :
    ((reconnect s rOk nOk).1).connected = s.connected ∧
    (∀ st : PyrinApiState, NewPyrinApi addr bwt true = some st → st.connected = true) ∧
    NewPyrinApi addr bwt false = none := by
  refine ⟨?_, ?_, rfl⟩
  · unfold reconnect
    cases h : s.pyrind with
    | some c => rfl
    | none => by_cases hn : nOk = true <;> simp [hn]
  · intro st hst
    unfold NewPyrinApi at hst
    rw [if_pos rfl] at hst
    rw [← Option.some.inj hst]

/-- Witness for C7 amended: the constructor sets `connected` to
`true`. -/
theorem C7_connected_never_mutated_witness :
    PyrinApiState.connected ⟨"a", 1, some ⟨"a"⟩, true⟩ = true :=
  (C7_connected_never_mutated ⟨"a", 1, none, true⟩ true true "a" 1).2.1
    ⟨"a", 1, some ⟨"a"⟩, true⟩ rfl

/-- C1 counterexample: under the go 1.18 ticker semantics the module's
go.mod selects, `ticker.C` is a one-slot buffered channel and
`ticker.Reset` does not drain it.  In the valid schedule below the
ticker fires at `t = 30`, buffering a tick; the push case is selected at
`t = 30`, invoking the callback and resetting the fire schedule to
`t = 60`; but the stale buffered tick survives the reset and is
received at `t = 31`, invoking a timer-driven callback at
`t = 31 < 30 + 30` — well before `T + MaxWorkStalenessInterval` for the
push at `T = 30`. -/
theorem C1_stale_buffered_tick_cex :
    feedValid 30 ⟨0, 30, false, 0, 0, false⟩
      [FeedHappening.fire 30,
       FeedHappening.iter ⟨30, false, true, false, false, SelectEvent.blockReady⟩,
       FeedHappening.iter ⟨31, false, false, false, false, SelectEvent.tick⟩] ∧
    (feedExec 30 ⟨0, 30, false, 0, 0, false⟩
      [FeedHappening.fire 30,
       FeedHappening.iter ⟨30, false, true, false, false, SelectEvent.blockReady⟩]).callbacks
      = 1 ∧
    (feedExec 30 ⟨0, 30, false, 0, 0, false⟩
      [FeedHappening.fire 30,
       FeedHappening.iter ⟨30, false, true, false, false, SelectEvent.blockReady⟩,
       FeedHappening.iter ⟨31, false, false, false, false, SelectEvent.tick⟩]).callbacks
      = 2 ∧
    31 < 30 + 30 := by
  decide

/-- C1 amended: when the push case is selected the work-ready callback
is invoked and `ticker.Reset` schedules the ticker's next internal fire
a full fresh interval from the push time; when the ticker case is
selected instead the callback is invoked and the fire schedule is not
touched, while a fire itself never invokes the callback and advances
the schedule by exactly one period.  Because `Reset` does not drain the
one-slot buffer of `ticker.C` (go 1.18 semantics), the staleness bound
is conditional: provided no tick is buffered at the moment of the push,
every later timer-driven callback in a valid schedule occurs no earlier
than the push time plus `blockWaitTime`; a tick already buffered before
the push escapes the bound, as the counterexample shows. -/
theorem C1_push_reset_no_drain_amended (bwt : Nat) (s s2 : FeedState) (t2 : Nat)
    (pre mid post : List FeedHappening) (pushEv tickEv : FeedEvent)
    (hvalid : feedValid bwt s
      (pre ++ FeedHappening.iter pushEv :: (mid ++ FeedHappening.iter tickEv :: post)))
    (hpush : pushEv.event = SelectEvent.blockReady)
    (hlive1 : (feedExec bwt s pre).done = false)
    (hbuf : (feedExec bwt s pre).buffered = false)
    (htick : tickEv.event = SelectEvent.tick)
    (hlive2 : (feedExec bwt s (pre ++ FeedHappening.iter pushEv :: mid)).done = false) :
    (feedExec bwt s (pre ++ [FeedHappening.iter pushEv])).callbacks
      = (feedExec bwt s pre).callbacks + 1 ∧
    (feedExec bwt s (pre ++ [FeedHappening.iter pushEv])).nextTick
      = pushEv.time + bwt ∧
    pushEv.time + bwt ≤ tickEv.time ∧
    (feedExec bwt s
        (pre ++ FeedHappening.iter pushEv :: (mid ++ [FeedHappening.iter tickEv]))).callbacks
      = (feedExec bwt s (pre ++ FeedHappening.iter pushEv :: mid)).callbacks + 1 ∧
    (feedExec bwt s
        (pre ++ FeedHappening.iter pushEv :: (mid ++ [FeedHappening.iter tickEv]))).nextTick
      = (feedExec bwt s (pre ++ FeedHappening.iter pushEv :: mid)).nextTick ∧
    (tickerFire bwt s2 t2).callbacks = s2.callbacks ∧
    (tickerFire bwt s2 t2).nextTick = s2.nextTick + bwt := by
  obtain ⟨hvpre, hvtail⟩ := feedValid_append bwt pre s
    (FeedHappening.iter pushEv :: (mid ++ FeedHappening.iter tickEv :: post)) hvalid
  simp only [feedValid] at hvtail
  obtain ⟨ht1, hcan1, hpr1, hrd1, hvrest⟩ := hvtail
  obtain ⟨hc1, hn1, hb1, htm1, hd1⟩ :=
    feedIter_push_step bwt (feedExec bwt s pre) pushEv hlive1 hpush
  have hrunPush : feedExec bwt s (pre ++ [FeedHappening.iter pushEv])
      = feedIter bwt (feedExec bwt s pre) pushEv := by
    rw [feedExec_append]; rfl
  have hrunMid : feedExec bwt s (pre ++ FeedHappening.iter pushEv :: mid)
      = feedExec bwt (feedIter bwt (feedExec bwt s pre) pushEv) mid := by
    rw [feedExec_append]; rfl
  obtain ⟨hvmid, hvtick⟩ := feedValid_append bwt mid
    (feedIter bwt (feedExec bwt s pre) pushEv)
    (FeedHappening.iter tickEv :: post) hvrest
  simp only [feedValid] at hvtick
  obtain ⟨ht3, hcan3, hpr3, hready, hvpost⟩ := hvtick
  have himp : (feedIter bwt (feedExec bwt s pre) pushEv).buffered = true →
      pushEv.time + bwt ≤ (feedIter bwt (feedExec bwt s pre) pushEv).time := by
    intro hx
    rw [hb1, hbuf] at hx
    exact absurd hx (by simp)
  obtain ⟨hinv1, hinv2, hinv3⟩ := feed_buffer_invariant bwt pushEv.time mid
    (feedIter bwt (feedExec bwt s pre) pushEv) hvmid
    (le_of_eq hn1.symm) himp (le_of_eq htm1.symm)
  have hd3 : (feedExec bwt (feedIter bwt (feedExec bwt s pre) pushEv) mid).done
      = false := by
    rw [← hrunMid]; exact hlive2
  have hbuf3 := hready hd3 htick
  obtain ⟨hc4, hn4, hb4, hd4⟩ := feedIter_tick_step bwt
    (feedExec bwt (feedIter bwt (feedExec bwt s pre) pushEv) mid) tickEv hd3 htick
  have hrunTick : feedExec bwt s
        (pre ++ FeedHappening.iter pushEv :: (mid ++ [FeedHappening.iter tickEv]))
      = feedIter bwt (feedExec bwt (feedIter bwt (feedExec bwt s pre) pushEv) mid)
          tickEv := by
    rw [feedExec_append bwt s pre]
    show feedExec bwt (feedIter bwt (feedExec bwt s pre) pushEv)
        (mid ++ [FeedHappening.iter tickEv]) = _
    rw [feedExec_append]
    rfl
  refine ⟨?_, ?_, le_trans (hinv2 hbuf3) ht3, ?_, ?_, rfl, rfl⟩
  · rw [hrunPush]; exact hc1
  · rw [hrunPush]; exact hn1
  · rw [hrunTick, hrunMid]; exact hc4
  · rw [hrunTick, hrunMid]; exact hn4

/-- Witness for C1 amended: interval 30, no tick buffered at a push at
`t = 5`, a fire at `t = 35`, and the resulting tick received at
`t = 36`, no earlier than `5 + 30`. -/
theorem C1_push_reset_no_drain_amended_witness :
    (feedExec 30 ⟨0, 30, false, 0, 0, false⟩
      [FeedHappening.iter ⟨5, false, true, false, false, SelectEvent.blockReady⟩]).callbacks
      = 1 ∧
    (5 : Nat) + 30 ≤ 36 := by
  have h := C1_push_reset_no_drain_amended 30 ⟨0, 30, false, 0, 0, false⟩
    ⟨0, 30, false, 0, 0, false⟩ 30 [] [FeedHappening.fire 35] []
    ⟨5, false, true, false, false, SelectEvent.blockReady⟩
    ⟨36, false, false, false, false, SelectEvent.tick⟩
    (by decide) rfl rfl rfl rfl (by decide)
  exact ⟨h.1, h.2.2.1⟩

/-- C2 counterexample: an iteration whose `waitForSync` failed and whose
`reconnect` also failed performs the retry sleep but then still falls
through to the `select` — there is no `continue` — so a fallback-timer
tick already delivered into `ticker.C` (fired at `t = 30`) is received
in that same degraded iteration and invokes the work-ready callback:
the degraded path does not re-enter the loop without delivering
work. -/
theorem C2_degraded_invokes_callback_cex :
    feedValid 30 ⟨0, 30, false, 0, 0, false⟩
      [FeedHappening.fire 30,
       FeedHappening.iter ⟨30, false, false, true, true, SelectEvent.tick⟩] ∧
    (feedExec 30 ⟨0, 30, false, 0, 0, false⟩
      [FeedHappening.fire 30,
       FeedHappening.iter ⟨30, false, false, true, true, SelectEvent.tick⟩]).callbacks
      = 1 ∧
    (feedExec 30 ⟨0, 30, false, 0, 0, false⟩
      [FeedHappening.fire 30,
       FeedHappening.iter ⟨30, false, false, true, true, SelectEvent.tick⟩]).sleeps
      = 1 := by
  decide

/-- C2 amended: in an iteration where `waitForSync` fails and the
reconnect attempt also fails, the loop sleeps the fixed 5-unit retry
interval and the failure handling itself invokes no callback; but the
iteration then proceeds to the event race rather than re-entering the
loop, so a pending push or timer event selected in that same iteration
still invokes the work-ready callback — only the cancellation case does
not. -/
theorem C2_degraded_amended (bwt : Nat) (s : FeedState) (ev : FeedEvent)
    (hs : ev.syncErr = true) (hr : ev.reconnectErr = true) (hd : s.done = false) :
    (feedIter bwt s ev).sleeps = s.sleeps + 1 ∧
    (feedPreSelect s ev).callbacks = s.callbacks ∧
    (ev.event = SelectEvent.ctxDone → (feedIter bwt s ev).callbacks = s.callbacks) ∧
    (ev.event ≠ SelectEvent.ctxDone → (feedIter bwt s ev).callbacks = s.callbacks + 1) := by
  have hpre : (feedPreSelect s ev).sleeps = s.sleeps + 1 := by
    unfold feedPreSelect; rw [hs, hr]; rfl
  refine ⟨?_, feedPreSelect_callbacks s ev, ?_, ?_⟩
  · rw [feedIter_not_done bwt s ev hd, feedSelect_sleeps, hpre]
  · intro hev
    rw [feedIter_not_done bwt s ev hd]
    unfold feedSelect
    rw [hev]
    simp
  · intro hev
    rw [feedIter_not_done bwt s ev hd]
    unfold feedSelect
    cases h : ev.event with
    | ctxDone => exact absurd h hev
    | blockReady => simp
    | tick => simp

/-- Witness for C2 amended: a degraded iteration resolved by a tick. -/
theorem C2_degraded_amended_witness :
    (feedIter 30 ⟨0, 30, true, 0, 0, false⟩
      ⟨30, false, false, true, true, SelectEvent.tick⟩).sleeps = 0 + 1 :=
  (C2_degraded_amended 30 ⟨0, 30, true, 0, 0, false⟩
    ⟨30, false, false, true, true, SelectEvent.tick⟩ rfl rfl rfl).1

/-- C6 counterexample: cancellation has fired (`ctx.Done()` is ready) at
an iteration where a push notification is simultaneously pending; the Go
`select` chooses pseudo-randomly among ready cases, so it may choose the
push case, invoking the work-ready callback after cancellation fired —
the schedule below is valid and invokes one callback. -/
theorem C6_cancel_race_cex :
    feedValid 30 ⟨0, 30, false, 0, 0, false⟩
      [FeedHappening.iter ⟨0, true, true, false, false, SelectEvent.blockReady⟩] ∧
    (feedExec 30 ⟨0, 30, false, 0, 0, false⟩
      [FeedHappening.iter ⟨0, true, true, false, false, SelectEvent.blockReady⟩]).callbacks
      = 1 := by
  decide

/-- C6 amended: once the cancellation case is the one selected, the feed
loop returns at once — no callback at that iteration and no later event
changes its state; the stats loop likewise returns on its cancellation
case and processes nothing further.  While cancellation is merely
pending, however, a simultaneously ready push or timer case may be
selected first and invoke the callback once more before a later
iteration observes cancellation. -/
theorem C6_cancellation_amended (bwt : Nat) (s : FeedState) (ev : FeedEvent)
    (evs : List FeedEvent) (ss : StatsState) (sevs : List StatsEvent)
    (hev : ev.event = SelectEvent.ctxDone) (hd : s.done = false)
    (hsd : ss.done = false) :
    (feedIter bwt s ev).done = true ∧
    (feedIter bwt s ev).callbacks = s.callbacks ∧
    feedRun bwt (feedIter bwt s ev) evs = feedIter bwt s ev ∧
    statsStep ss StatsEvent.ctxDone = some { ss with done := true } ∧
    statsRun { ss with done := true } sevs = some { ss with done := true } := by
  have hdone : (feedIter bwt s ev).done = true := by
    rw [feedIter_not_done bwt s ev hd]
    unfold feedSelect
    rw [hev]
  refine ⟨hdone, ?_, feedRun_done bwt evs _ hdone, ?_, statsRun_done sevs _ rfl⟩
  · rw [feedIter_not_done bwt s ev hd]
    unfold feedSelect
    rw [hev]
    simp
  · unfold statsStep
    rw [hsd]
    rfl

/-- Witness for C6 amended: a cancellation selected in the initial
state. -/
theorem C6_cancellation_amended_witness :
    (feedIter 30 ⟨0, 30, false, 0, 0, false⟩
      ⟨1, true, false, false, false, SelectEvent.ctxDone⟩).done = true :=
  (C6_cancellation_amended 30 ⟨0, 30, false, 0, 0, false⟩
    ⟨1, true, false, false, false, SelectEvent.ctxDone⟩ [] ⟨[], [], false⟩ []
    rfl rfl rfl).1

/-- C8: each stats tick is best-effort: a DAG-info query failure or an
estimate query failure is logged as a warning and the tick is skipped
with no sample, no retry and no error escaping the loop; only when both
queries succeed is exactly one sample — hashes per second, block count,
difficulty — forwarded; and runs compose by appending, so no state
beyond the accumulated output is carried between ticks. -/
theorem C8_stats_best_effort (est : String → Nat → Except Unit Nat)
    (dag : DagInfo) (tip : String) (h : Nat) (ss : StatsState)
    (xs ys : List StatsEvent) :
    statsTick (Except.error ()) est = some (none, [⟨LogLevel.warn, statsWarnMsg⟩]) ∧
    (dag.tipHashes.get? 0 = some tip → est tip 1000 = Except.error () →
      statsTick (Except.ok dag) est = some (none, [⟨LogLevel.warn, statsWarnMsg⟩])) ∧
    (dag.tipHashes.get? 0 = some tip → est tip 1000 = Except.ok h →
      statsTick (Except.ok dag) est
        = some (some ⟨h, dag.blockCount, dag.difficulty⟩, [])) ∧
    (ss.done = false →
      statsStep ss (StatsEvent.tick (Except.error ()) est)
        = some { ss with logs := ss.logs ++ [⟨LogLevel.warn, statsWarnMsg⟩] }) ∧
    statsRun ss (xs ++ ys) = (statsRun ss xs).bind (fun s2 => statsRun s2 ys) := by
  refine ⟨rfl, ?_, ?_, ?_, statsRun_append xs ys ss⟩
  · intro h1 h2
    simp only [statsTick, h1, h2]
  · intro h1 h2
    simp only [statsTick, h1, h2]
  · intro hd
    unfold statsStep statsTick
    rw [hd]
    simp

/-- Witness for C8: a tick where both queries succeed. -/
theorem C8_stats_best_effort_witness :
    statsTick (Except.ok ⟨["t"], 5, 3⟩) (fun _ _ => Except.ok 7)
      = some (some ⟨7, 5, 3⟩, []) :=
  (C8_stats_best_effort (fun _ _ => Except.ok 7) ⟨["t"], 5, 3⟩ "t" 7
    ⟨[], [], false⟩ [] []).2.2.1 rfl rfl

/-- C9: when registration for push notifications fails, the failure is
logged at error severity and the feed loop nevertheless runs in
fallback-timer-only operation: in any schedule whose selected events are
all fallback-timer firings, every firing invokes the work-ready callback
and the loop keeps running. -/
theorem C9_registration_failure_fallback (bwt : Nat) (s : FeedState)
    (evs : List FeedEvent) (hd : s.done = false)
    (hall : ∀ ev ∈ evs, ev.event = SelectEvent.tick) :
    (startBlockTemplateListener bwt true s evs).1
      = [⟨LogLevel.error, "fatal: failed to register for block notifications from pyrin"⟩] ∧
    ((startBlockTemplateListener bwt true s evs).2).callbacks
      = s.callbacks + evs.length ∧
    ((startBlockTemplateListener bwt true s evs).2).done = false := by
  obtain ⟨h1, h2⟩ := feedRun_all_ticks bwt evs s hd hall
  exact ⟨rfl, h1, h2⟩

/-- Witness for C9: registration fails and two timer firings deliver two
callbacks. -/
theorem C9_registration_failure_fallback_witness :
    ((startBlockTemplateListener 30 true ⟨0, 30, false, 0, 0, false⟩
        [⟨30, false, false, false, false, SelectEvent.tick⟩,
         ⟨60, false, false, false, false, SelectEvent.tick⟩]).2).callbacks = 0 + 2 :=
  (C9_registration_failure_fallback 30 ⟨0, 30, false, 0, 0, false⟩
    [⟨30, false, false, false, false, SelectEvent.tick⟩,
     ⟨60, false, false, false, false, SelectEvent.tick⟩] rfl (by decide)).2.1

/-- C10: a stats tick whose DAG query succeeded indexes the first tip
hash with no emptiness guard — `dagResponse.TipHashes[0]` — so the tick
has a defined result exactly when the returned tip-hash list is
non-empty; on an empty list the operation has no defined result (an
out-of-range index). -/
theorem C10_tip_index_unguarded (dag : DagInfo)
    (est : String → Nat → Except Unit Nat) :
    statsTick (Except.ok dag) est = none ↔ dag.tipHashes = [] := by
  unfold statsTick
  cases h : dag.tipHashes with
  | nil => simp [h]
  | cons t rest =>
    simp [h]
    cases est t 1000 <;> simp

end PyrinStratum
